import Mathlib

/-
  Verification of the keyring store in src/relayer/src/keyring/store.rs.

  The store is embedded shallowly: the BTreeMap becomes an association
  list with map semantics, methods taking a mutable reference become
  state-passing functions returning the updated ring, and the two
  process-aborting unwrap calls inside sign are made explicit by an
  Option result where none marks the abort.  The external crates
  (bitcoin_wallet mnemonics, bitcoin bip32 derivation, k256 ecdsa) are
  modelled as an abstract CryptoOps parameter; the in-repo hash pipeline
  get_address (rust-crypto Sha256 then Ripemd160) is implemented in
  full.
-/

namespace Keyring

/-- Raw byte strings are lists of naturals below 256. -/
abbrev Bytes := List Nat

/-- The type Address = Vec of u8 from the source. -/
abbrev Address := Bytes

/- 32-bit word arithmetic used by both hash functions. -/

def M32 : Nat := 4294967296

def add32 (a b : Nat) : Nat := (a + b) % M32

def not32 (x : Nat) : Nat := x ^^^ (M32 - 1)

def rotl32 (x n : Nat) : Nat := ((x <<< n) % M32) ||| (x >>> (32 - n))

def rotr32 (x n : Nat) : Nat := (x >>> n) ||| ((x <<< (32 - n)) % M32)

/-- Big-endian 4-byte serialization of a 32-bit word. -/
def toBE4 (n : Nat) : Bytes := [(n >>> 24) % 256, (n >>> 16) % 256, (n >>> 8) % 256, n % 256]

/-- Little-endian 4-byte serialization of a 32-bit word. -/
def toLE4 (n : Nat) : Bytes := [n % 256, (n >>> 8) % 256, (n >>> 16) % 256, (n >>> 24) % 256]

/-- Big-endian 8-byte serialization of a 64-bit length. -/
def toBE8 (n : Nat) : Bytes :=
  [(n >>> 56) % 256, (n >>> 48) % 256, (n >>> 40) % 256, (n >>> 32) % 256,
   (n >>> 24) % 256, (n >>> 16) % 256, (n >>> 8) % 256, n % 256]

/-- Little-endian 8-byte serialization of a 64-bit length. -/
def toLE8 (n : Nat) : Bytes :=
  [n % 256, (n >>> 8) % 256, (n >>> 16) % 256, (n >>> 24) % 256,
   (n >>> 32) % 256, (n >>> 40) % 256, (n >>> 48) % 256, (n >>> 56) % 256]

/-- Group bytes into big-endian 32-bit words. -/
def bytesToWordsBE : Bytes → List Nat
  | a :: b :: c :: d :: t => (((a * 256 + b) * 256 + c) * 256 + d) :: bytesToWordsBE t
  | _ => []

/-- Group bytes into little-endian 32-bit words. -/
def bytesToWordsLE : Bytes → List Nat
  | a :: b :: c :: d :: t => (a + 256 * (b + 256 * (c + 256 * d))) :: bytesToWordsLE t
  | _ => []

/-- Fuel-driven split into 64-byte blocks, structural so the kernel can
evaluate it. -/
def splitBlocksAux : Nat → Bytes → List Bytes
  | 0, _ => []
  | _, [] => []
  | Nat.succ fuel, bs => bs.take 64 :: splitBlocksAux fuel (bs.drop 64)

def splitBlocks (bs : Bytes) : List Bytes := splitBlocksAux (bs.length + 1) bs

/-- Merkle-Damgaard padding: 0x80, zeros to 56 mod 64, then the 8-byte
encoded bit length. -/
def padTail (l : Nat) (lenBytes : Bytes) : Bytes :=
  128 :: List.replicate ((119 - l % 64) % 64) 0 ++ lenBytes

/- SHA-256, as computed by rust-crypto Sha256 inside get_address. -/

def shaCh (x y z : Nat) : Nat := (x &&& y) ^^^ (not32 x &&& z)

def shaMaj (x y z : Nat) : Nat := (x &&& y) ^^^ (x &&& z) ^^^ (y &&& z)

def shaBigS0 (x : Nat) : Nat := rotr32 x 2 ^^^ rotr32 x 13 ^^^ rotr32 x 22

def shaBigS1 (x : Nat) : Nat := rotr32 x 6 ^^^ rotr32 x 11 ^^^ rotr32 x 25

def shaSmallS0 (x : Nat) : Nat := rotr32 x 7 ^^^ rotr32 x 18 ^^^ (x >>> 3)

def shaSmallS1 (x : Nat) : Nat := rotr32 x 17 ^^^ rotr32 x 19 ^^^ (x >>> 10)

def shaK : List Nat :=
  [1116352408, 1899447441, 3049323471, 3921009573, 961987163, 1508970993,
   2453635748, 2870763221, 3624381080, 310598401, 607225278, 1426881987,
   1925078388, 2162078206, 2614888103, 3248222580, 3835390401, 4022224774,
   264347078, 604807628, 770255983, 1249150122, 1555081692, 1996064986,
   2554220882, 2821834349, 2952996808, 3210313671, 3336571891, 3584528711,
   113926993, 338241895, 666307205, 773529912, 1294757372, 1396182291,
   1695183700, 1986661051, 2177026350, 2456956037, 2730485921, 2820302411,
   3259730800, 3345764771, 3516065817, 3600352804, 4094571909, 275423344,
   430227734, 506948616, 659060556, 883997877, 958139571, 1322822218,
   1537002063, 1747873779, 1955562222, 2024104815, 2227730452, 2361852424,
   2428436474, 2756734187, 3204031479, 3329325298]

structure Sha256State where
  a : Nat
  b : Nat
  c : Nat
  d : Nat
  e : Nat
  f : Nat
  g : Nat
  h : Nat

def shaInit : Sha256State :=
  ⟨1779033703, 3144134277, 1013904242, 2773480762,
   1359893119, 2600822924, 528734635, 1541459225⟩

/-- Extend the 16 message-schedule words by the given number of steps. -/
def shaExtend : Nat → List Nat → List Nat
  | 0, ws => ws
  | Nat.succ k, ws =>
    let n := ws.length
    let w := add32 (add32 (shaSmallS1 (ws.getD (n - 2) 0)) (ws.getD (n - 7) 0))
                   (add32 (shaSmallS0 (ws.getD (n - 15) 0)) (ws.getD (n - 16) 0))
    shaExtend k (ws ++ [w])

def shaRound (st : Sha256State) (kw : Nat × Nat) : Sha256State :=
  let t1 := add32 (add32 (add32 st.h (shaBigS1 st.e)) (add32 (shaCh st.e st.f st.g) kw.1)) kw.2
  let t2 := add32 (shaBigS0 st.a) (shaMaj st.a st.b st.c)
  ⟨add32 t1 t2, st.a, st.b, st.c, add32 st.d t1, st.e, st.f, st.g⟩

def shaCompress (st : Sha256State) (block : Bytes) : Sha256State :=
  let ws := shaExtend 48 (bytesToWordsBE block)
  let st2 := (shaK.zip ws).foldl shaRound st
  ⟨add32 st.a st2.a, add32 st.b st2.b, add32 st.c st2.c, add32 st.d st2.d,
   add32 st.e st2.e, add32 st.f st2.f, add32 st.g st2.g, add32 st.h st2.h⟩

def shaSerialize (st : Sha256State) : Bytes :=
  toBE4 st.a ++ toBE4 st.b ++ toBE4 st.c ++ toBE4 st.d ++
  toBE4 st.e ++ toBE4 st.f ++ toBE4 st.g ++ toBE4 st.h

/-- SHA-256 of a byte string. -/
def sha256 (msg : Bytes) : Bytes :=
  let padded := msg ++ padTail msg.length (toBE8 (8 * msg.length))
  shaSerialize ((splitBlocks padded).foldl shaCompress shaInit)

/- RIPEMD-160, as computed by rust-crypto Ripemd160 inside get_address. -/

def rmdF (j x y z : Nat) : Nat :=
  if j < 16 then x ^^^ y ^^^ z
  else if j < 32 then (x &&& y) ||| (not32 x &&& z)
  else if j < 48 then (x ||| not32 y) ^^^ z
  else if j < 64 then (x &&& z) ||| (y &&& not32 z)
  else x ^^^ (y ||| not32 z)

def rmdKL (j : Nat) : Nat :=
  if j < 16 then 0 else if j < 32 then 1518500249 else if j < 48 then 1859775393
  else if j < 64 then 2400959708 else 2840853838

def rmdKR (j : Nat) : Nat :=
  if j < 16 then 1352829926 else if j < 32 then 1548603684 else if j < 48 then 1836072691
  else if j < 64 then 2053994217 else 0

def rmdRL : List Nat :=
  [0, 1, 2, 3, 4, 5, 6, 7, 8, 9, 10, 11, 12, 13, 14, 15,
   7, 4, 13, 1, 10, 6, 15, 3, 12, 0, 9, 5, 2, 14, 11, 8,
   3, 10, 14, 4, 9, 15, 8, 1, 2, 7, 0, 6, 13, 11, 5, 12,
   1, 9, 11, 10, 0, 8, 12, 4, 13, 3, 7, 15, 14, 5, 6, 2,
   4, 0, 5, 9, 7, 12, 2, 10, 14, 1, 3, 8, 11, 6, 15, 13]

def rmdRR : List Nat :=
  [5, 14, 7, 0, 9, 2, 11, 4, 13, 6, 15, 8, 1, 10, 3, 12,
   6, 11, 3, 7, 0, 13, 5, 10, 14, 15, 8, 12, 4, 9, 1, 2,
   15, 5, 1, 3, 7, 14, 6, 9, 11, 8, 12, 2, 10, 0, 4, 13,
   8, 6, 4, 1, 3, 11, 15, 0, 5, 12, 2, 13, 9, 7, 10, 14,
   12, 15, 10, 4, 1, 5, 8, 7, 6, 2, 13, 14, 0, 3, 9, 11]

def rmdSL : List Nat :=
  [11, 14, 15, 12, 5, 8, 7, 9, 11, 13, 14, 15, 6, 7, 9, 8,
   7, 6, 8, 13, 11, 9, 7, 15, 7, 12, 15, 9, 11, 7, 13, 12,
   11, 13, 6, 7, 14, 9, 13, 15, 14, 8, 13, 6, 5, 12, 7, 5,
   11, 12, 14, 15, 14, 15, 9, 8, 9, 14, 5, 6, 8, 6, 5, 12,
   9, 15, 5, 11, 6, 8, 13, 12, 5, 12, 13, 14, 11, 8, 5, 6]

def rmdSR : List Nat :=
  [8, 9, 9, 11, 13, 15, 15, 5, 7, 7, 8, 11, 14, 14, 12, 6,
   9, 13, 15, 7, 12, 8, 9, 11, 7, 7, 12, 7, 6, 15, 13, 11,
   9, 7, 15, 11, 8, 6, 6, 14, 12, 13, 5, 14, 13, 13, 7, 5,
   15, 5, 8, 11, 14, 14, 6, 14, 6, 9, 12, 9, 12, 5, 15, 8,
   8, 5, 12, 9, 12, 5, 14, 6, 8, 13, 6, 5, 15, 13, 11, 11]

structure RmdState where
  a : Nat
  b : Nat
  c : Nat
  d : Nat
  e : Nat

def rmdInit : RmdState := ⟨1732584193, 4023233417, 2562383102, 271733878, 3285377520⟩

def rmdStep (X : List Nat) (fSel : Nat → Nat) (K : Nat → Nat) (r s : List Nat)
    (st : RmdState) (j : Nat) : RmdState :=
  let t := add32 (rotl32 (add32 (add32 (add32 st.a (rmdF (fSel j) st.b st.c st.d))
                                       (X.getD (r.getD j 0) 0)) (K j)) (s.getD j 0)) st.e
  ⟨st.e, t, st.b, rotl32 st.c 10, st.d⟩

def rmdCompress (h : RmdState) (block : Bytes) : RmdState :=
  let X := bytesToWordsLE block
  let L := (List.range 80).foldl (rmdStep X (fun j => j) rmdKL rmdRL rmdSL) h
  let R := (List.range 80).foldl (rmdStep X (fun j => 79 - j) rmdKR rmdRR rmdSR) h
  ⟨add32 (add32 h.b L.c) R.d,
   add32 (add32 h.c L.d) R.e,
   add32 (add32 h.d L.e) R.a,
   add32 (add32 h.e L.a) R.b,
   add32 (add32 h.a L.b) R.c⟩

def rmdSerialize (st : RmdState) : Bytes :=
  toLE4 st.a ++ toLE4 st.b ++ toLE4 st.c ++ toLE4 st.d ++ toLE4 st.e

/-- RIPEMD-160 of a byte string. -/
def ripemd160 (msg : Bytes) : Bytes :=
  let padded := msg ++ padTail msg.length (toLE8 (8 * msg.length))
  rmdSerialize ((splitBlocks padded).foldl rmdCompress rmdInit)

/- The error kinds of keyring/errors.rs that store.rs constructs. -/

inductive Kind where
  | invalidKey
  | invalidMnemonic
  | privateKey
deriving DecidableEq

/-- Key entry stores the private key and public key, as in the source
struct KeyEntry.  The concrete extended-key types live in external
crates, so they are type parameters here. -/
structure KeyEntry (PubKey PrivKey : Type) where
  public_key : PubKey
  private_key : PrivKey
deriving DecidableEq

/-- Abstract model of the external crates used by store.rs: mnemonic
parsing and seeding (bitcoin_wallet), bip32 master and path derivation
(bitcoin), and ecdsa signing keys, signing and verification (k256).
Fallible constructors return none exactly where the crate returns an
error. -/
structure CryptoOps (PubKey PrivKey SKey : Type) where
  mnemonicFromStr : String → Option Bytes
  toSeed : Bytes → Bytes
  newMaster : Bytes → Option PrivKey
  derivePriv : PrivKey → Option PrivKey
  fromPrivate : PrivKey → PubKey
  pubBytes : PubKey → Bytes
  privBytes : PrivKey → Bytes
  signingKeyNew : Bytes → Option SKey
  signRaw : SKey → Bytes → Bytes
  verify : Bytes → Bytes → Bytes → Bool

/-- Return an address from a public key: Sha256 over the serialized
public-key bytes, then Ripemd160 over that digest, exactly as the
source get_address. -/
def get_address {PubKey PrivKey SKey : Type} (c : CryptoOps PubKey PrivKey SKey)
    (pk : PubKey) : Bytes :=
  let bytes := sha256 (c.pubBytes pk)
  let acct := ripemd160 bytes
  acct

/- Association-list model of BTreeMap over Address keys: at most one
binding per key, lookup by decidable equality, insert replaces in
place and reports the previous binding like BTreeMap insert. -/

def mapLookup {α : Type} : List (Address × α) → Address → Option α
  | [], _ => none
  | (a, v) :: t, k => if a = k then some v else mapLookup t k

def containsKey {α : Type} (s : List (Address × α)) (k : Address) : Bool :=
  (mapLookup s k).isSome

def mapInsert {α : Type} : List (Address × α) → Address → α → Option α × List (Address × α)
  | [], k, v => (none, [(k, v)])
  | (a, w) :: t, k, v =>
    if a = k then (some w, (k, v) :: t)
    else
      let r := mapInsert t k v
      (r.1, (a, w) :: r.2)

inductive StoreBackend where
  | memory

/-- The KeyRing enum: one variant holding the in-memory map. -/
inductive KeyRing (PubKey PrivKey : Type) where
  | memoryKeyStore (store : List (Address × KeyEntry PubKey PrivKey))
deriving DecidableEq

variable {PubKey PrivKey SKey : Type}

/-- The underlying map of the single variant. -/
def KeyRing.store : KeyRing PubKey PrivKey → List (Address × KeyEntry PubKey PrivKey)
  | .memoryKeyStore s => s

/-- Initialize an in-memory key entry store. -/
def KeyRing.init (backend : StoreBackend) : KeyRing PubKey PrivKey :=
  match backend with
  | .memory => .memoryKeyStore []

/-- Return a key entry for an address.  Mirrors the source: a
containment test first, then a lookup whose none branch repeats the
InvalidKey error. -/
def KeyRing.get (self : KeyRing PubKey PrivKey) (address : Address) :
    Except Kind (KeyEntry PubKey PrivKey) :=
  match self with
  | .memoryKeyStore s =>
    if ¬ containsKey s address then .error .invalidKey
    else
      match mapLookup s address with
      | some k => .ok k
      | none => .error .invalidKey

/-- Insert an entry in the key store, returning the previous entry at
that address together with the updated ring (the source mutates
through a mut reference and returns only the previous entry). -/
def KeyRing.insert (self : KeyRing PubKey PrivKey) (addr : Address)
    (key : KeyEntry PubKey PrivKey) :
    Option (KeyEntry PubKey PrivKey) × KeyRing PubKey PrivKey :=
  match self with
  | .memoryKeyStore s =>
    let r := mapInsert s addr key
    (r.1, .memoryKeyStore r.2)

/-- Add a key entry in the store using a mnemonic.  State passing makes
the mutation explicit: the returned ring is the possibly updated store.
Both bip32 failure points map to the PrivateKey kind, as in the source
and_then chain. -/
def KeyRing.add_from_mnemonic (c : CryptoOps PubKey PrivKey SKey)
    (self : KeyRing PubKey PrivKey) (mnemonic_words : String) :
    Except Kind Address × KeyRing PubKey PrivKey :=
  match c.mnemonicFromStr mnemonic_words with
  | none => (.error .invalidMnemonic, self)
  | some mnemonic =>
    let seed := c.toSeed mnemonic
    match (c.newMaster seed).bind c.derivePriv with
    | none => (.error .privateKey, self)
    | some private_key =>
      let public_key := c.fromPrivate private_key
      let address := get_address c public_key
      let key : KeyEntry PubKey PrivKey := ⟨public_key, private_key⟩
      let r := self.insert address key
      (.ok address, r.2)

/-- Sign a message.  The source unwraps the get result and the signing
key constructor, aborting the process on failure; none marks those
aborts. -/
def KeyRing.sign (c : CryptoOps PubKey PrivKey SKey) (self : KeyRing PubKey PrivKey)
    (signer : Address) (msg : Bytes) : Option Bytes :=
  match self.get signer with
  | .error _ => none
  | .ok key =>
    match c.signingKeyNew (c.privBytes key.private_key) with
    | none => none
    | some signing_key => some (c.signRaw signing_key msg)

/-- Small concrete instantiation of the external crates, used to
exercise the theorems on closed inputs: keys are raw byte lists, the
signature is the key followed by the message, and verification checks
that shape against the public key. -/
def toyCrypto : CryptoOps Bytes Bytes Bytes :=
  ⟨fun s => if s = "" then none else some (s.data.map Char.toNat),
   fun b => b,
   fun b => some b,
   fun b => some b,
   fun b => b,
   fun b => b,
   fun b => b,
   fun b => some b,
   fun sk m => sk ++ m,
   fun pk m sig => sig == pk ++ m⟩

/- Helper lemmas about the map model and the store operations. -/

theorem mapInsert_fst {α : Type} (s : List (Address × α)) (k : Address) (v : α) :
    (mapInsert s k v).1 = mapLookup s k := by
  induction s with
  | nil => rfl
  | cons hd t ih =>
    obtain ⟨a, w⟩ := hd
    by_cases hak : a = k <;> simp [mapInsert, mapLookup, hak, ih]

theorem mapLookup_insert_self {α : Type} (s : List (Address × α)) (k : Address) (v : α) :
    mapLookup (mapInsert s k v).2 k = some v := by
  induction s with
  | nil => simp [mapInsert, mapLookup]
  | cons hd t ih =>
    obtain ⟨a, w⟩ := hd
    by_cases hak : a = k <;> simp [mapInsert, mapLookup, hak, ih]

theorem mapLookup_insert_ne {α : Type} (s : List (Address × α)) (k kP : Address) (v : α)
    (h : kP ≠ k) : mapLookup (mapInsert s k v).2 kP = mapLookup s kP := by
  induction s with
  | nil => simp [mapInsert, mapLookup, Ne.symm h]
  | cons hd t ih =>
    obtain ⟨a, w⟩ := hd
    by_cases hak : a = k
    · subst hak
      simp [mapInsert, mapLookup, Ne.symm h]
    · simp [mapInsert, mapLookup, hak, ih]

variable {PubKey PrivKey SKey : Type}

/-- The get method is lookup followed by the InvalidKey error on a
miss; the redundant containment test in the source collapses away. -/
theorem KeyRing.get_eq (s : List (Address × KeyEntry PubKey PrivKey)) (a : Address) :
    KeyRing.get (.memoryKeyStore s) a =
      (match mapLookup s a with
       | some k => Except.ok k
       | none => Except.error Kind.invalidKey) := by
  cases h : mapLookup s a <;> simp [KeyRing.get, containsKey, h]

/-- Unfolding of a successful add_from_mnemonic run. -/
theorem add_from_mnemonic_success (c : CryptoOps PubKey PrivKey SKey)
    (ring : KeyRing PubKey PrivKey) (m : String) (mn : Bytes) (priv : PrivKey)
    (h1 : c.mnemonicFromStr m = some mn)
    (h2 : (c.newMaster (c.toSeed mn)).bind c.derivePriv = some priv) :
    KeyRing.add_from_mnemonic c ring m =
      (Except.ok (get_address c (c.fromPrivate priv)),
       (ring.insert (get_address c (c.fromPrivate priv))
         ⟨c.fromPrivate priv, priv⟩).2) := by
  simp [KeyRing.add_from_mnemonic, h1, h2]

/-- A successful add leaves the derived entry at the derived address. -/
theorem get_after_add (c : CryptoOps PubKey PrivKey SKey)
    (ring : KeyRing PubKey PrivKey) (m : String) (mn : Bytes) (priv : PrivKey)
    (h1 : c.mnemonicFromStr m = some mn)
    (h2 : (c.newMaster (c.toSeed mn)).bind c.derivePriv = some priv) :
    KeyRing.get (KeyRing.add_from_mnemonic c ring m).2 (get_address c (c.fromPrivate priv)) =
      Except.ok ⟨c.fromPrivate priv, priv⟩ := by
  rw [add_from_mnemonic_success c ring m mn priv h1 h2]
  obtain ⟨s⟩ := ring
  rw [KeyRing.insert, KeyRing.get_eq, mapLookup_insert_self]

/-- A successful add followed by sign at the derived address produces
the raw signature of the stored private key, provided the signing-key
constructor accepts the derived key bytes. -/
theorem sign_after_add (c : CryptoOps PubKey PrivKey SKey) (ring : KeyRing PubKey PrivKey)
    (m : String) (mn : Bytes) (priv : PrivKey) (skey : SKey) (msg : Bytes)
    (h1 : c.mnemonicFromStr m = some mn)
    (h2 : (c.newMaster (c.toSeed mn)).bind c.derivePriv = some priv)
    (hsk : c.signingKeyNew (c.privBytes priv) = some skey) :
    KeyRing.sign c (KeyRing.add_from_mnemonic c ring m).2
      (get_address c (c.fromPrivate priv)) msg = some (c.signRaw skey msg) := by
  simp [KeyRing.sign, get_after_add c ring m mn priv h1 h2, hsk]

/-- C1: the claim says that signing with a never-inserted address
returns the InvalidKey error and does not abort.  The source instead
calls unwrap on the failed lookup inside sign, so the process aborts:
the none result here marks that abort.  Sign can return no error value
at all, so the claim describes the documented intent, not the code. -/
theorem C1_sign_aborts_on_unknown_address (c : CryptoOps PubKey PrivKey SKey)
    (ring : KeyRing PubKey PrivKey) (a : Address) (msg : Bytes)
    (h : mapLookup ring.store a = none) :
    KeyRing.sign c ring a msg = none := by
  obtain ⟨s⟩ := ring
  simp only [KeyRing.store] at h
  simp [KeyRing.sign, KeyRing.get_eq, h]

theorem C1_witness :
    mapLookup (KeyRing.init StoreBackend.memory : KeyRing Bytes Bytes).store [0] = none ∧
    KeyRing.sign toyCrypto (KeyRing.init StoreBackend.memory : KeyRing Bytes Bytes) [0] [1] = none :=
  ⟨rfl, C1_sign_aborts_on_unknown_address toyCrypto (KeyRing.init StoreBackend.memory) [0] [1] rfl⟩

/-- C2: a mnemonic that fails parsing yields the InvalidMnemonic error,
and whenever add_from_mnemonic returns any error the store is exactly
the ring passed in, with no entry added or changed. -/
theorem C2_error_leaves_store_unchanged (c : CryptoOps PubKey PrivKey SKey)
    (ring : KeyRing PubKey PrivKey) (m : String) :
    (c.mnemonicFromStr m = none →
      (KeyRing.add_from_mnemonic c ring m).1 = Except.error Kind.invalidMnemonic) ∧
    (∀ e, (KeyRing.add_from_mnemonic c ring m).1 = Except.error e →
      (KeyRing.add_from_mnemonic c ring m).2 = ring) := by
  constructor
  · intro h
    simp [KeyRing.add_from_mnemonic, h]
  · intro e he
    cases h1 : c.mnemonicFromStr m with
    | none => simp [KeyRing.add_from_mnemonic, h1]
    | some mn =>
      cases h2 : (c.newMaster (c.toSeed mn)).bind c.derivePriv with
      | none => simp [KeyRing.add_from_mnemonic, h1, h2]
      | some priv =>
        rw [add_from_mnemonic_success c ring m mn priv h1 h2] at he
        simp at he

theorem C2_witness :
    toyCrypto.mnemonicFromStr "" = none ∧
    (KeyRing.add_from_mnemonic toyCrypto (KeyRing.init StoreBackend.memory : KeyRing Bytes Bytes) "").1 =
      Except.error Kind.invalidMnemonic ∧
    (KeyRing.add_from_mnemonic toyCrypto (KeyRing.init StoreBackend.memory : KeyRing Bytes Bytes) "").2 =
      KeyRing.init StoreBackend.memory :=
  ⟨rfl,
   (C2_error_leaves_store_unchanged toyCrypto (KeyRing.init StoreBackend.memory) "").1 rfl,
   (C2_error_leaves_store_unchanged toyCrypto (KeyRing.init StoreBackend.memory) "").2
     Kind.invalidMnemonic
     ((C2_error_leaves_store_unchanged toyCrypto (KeyRing.init StoreBackend.memory) "").1 rfl)⟩

/-- C3: for a fixed mnemonic that parses and derives, any two runs of
add_from_mnemonic on two freshly initialized empty stores return one
common address, and the entries stored under it agree. -/
theorem C3_deterministic_derivation (c : CryptoOps PubKey PrivKey SKey) (m : String)
    (mn : Bytes) (priv : PrivKey)
    (r1 r2 : Except Kind Address × KeyRing PubKey PrivKey)
    (h1 : c.mnemonicFromStr m = some mn)
    (h2 : (c.newMaster (c.toSeed mn)).bind c.derivePriv = some priv)
    (hr1 : r1 = KeyRing.add_from_mnemonic c (KeyRing.init StoreBackend.memory) m)
    (hr2 : r2 = KeyRing.add_from_mnemonic c (KeyRing.init StoreBackend.memory) m) :
    ∃ a entry, r1.1 = Except.ok a ∧ r2.1 = Except.ok a ∧
      KeyRing.get r1.2 a = Except.ok entry ∧ KeyRing.get r2.2 a = Except.ok entry := by
  subst hr1
  subst hr2
  refine ⟨get_address c (c.fromPrivate priv), ⟨c.fromPrivate priv, priv⟩, ?_, ?_, ?_, ?_⟩
  · rw [add_from_mnemonic_success c _ m mn priv h1 h2]
  · rw [add_from_mnemonic_success c _ m mn priv h1 h2]
  · exact get_after_add c _ m mn priv h1 h2
  · exact get_after_add c _ m mn priv h1 h2

theorem C3_witness :
    toyCrypto.mnemonicFromStr "a" = some [97] ∧
    (toyCrypto.newMaster (toyCrypto.toSeed [97])).bind toyCrypto.derivePriv = some [97] ∧
    ∃ a entry,
      (KeyRing.add_from_mnemonic toyCrypto (KeyRing.init StoreBackend.memory : KeyRing Bytes Bytes) "a").1 =
        Except.ok a ∧
      (KeyRing.add_from_mnemonic toyCrypto (KeyRing.init StoreBackend.memory : KeyRing Bytes Bytes) "a").1 =
        Except.ok a ∧
      KeyRing.get (KeyRing.add_from_mnemonic toyCrypto
        (KeyRing.init StoreBackend.memory : KeyRing Bytes Bytes) "a").2 a = Except.ok entry ∧
      KeyRing.get (KeyRing.add_from_mnemonic toyCrypto
        (KeyRing.init StoreBackend.memory : KeyRing Bytes Bytes) "a").2 a = Except.ok entry :=
  ⟨rfl, rfl, C3_deterministic_derivation toyCrypto "a" [97] [97] _ _ rfl rfl rfl rfl⟩

/-- C4: the address is Ripemd160 of the Sha256 digest of the serialized
public-key bytes, is exactly 20 bytes long, and carries nothing else:
it equals the bare second digest, whose input digest is 32 bytes. -/
theorem C4_address_is_hash160 (c : CryptoOps PubKey PrivKey SKey) (pk : PubKey) :
    get_address c pk = ripemd160 (sha256 (c.pubBytes pk)) ∧
    (get_address c pk).length = 20 ∧
    (sha256 (c.pubBytes pk)).length = 32 :=
  ⟨rfl, rfl, rfl⟩

/-- C5: get fails with InvalidKey exactly on the addresses absent from
the map, and succeeds exactly with the entry the map stores. -/
theorem C5_get_iff_stored (ring : KeyRing PubKey PrivKey) (a : Address) :
    (ring.get a = Except.error Kind.invalidKey ↔ mapLookup ring.store a = none) ∧
    (∀ k, ring.get a = Except.ok k ↔ mapLookup ring.store a = some k) := by
  obtain ⟨s⟩ := ring
  rw [KeyRing.get_eq]
  constructor
  · cases h : mapLookup s a <;> simp [KeyRing.store, h]
  · intro k
    cases h : mapLookup s a <;> simp [KeyRing.store, h]

/-- C6: insert returns the previously stored entry (none when absent),
and a second insert at the same address silently replaces the first,
so get afterwards returns the second entry. -/
theorem C6_insert_returns_previous_and_overwrites (ring : KeyRing PubKey PrivKey)
    (a : Address) (k k1 k2 : KeyEntry PubKey PrivKey) :
    (ring.insert a k).1 = mapLookup ring.store a ∧
    KeyRing.get ((ring.insert a k1).2.insert a k2).2 a = Except.ok k2 := by
  obtain ⟨s⟩ := ring
  constructor
  · simp [KeyRing.insert, KeyRing.store, mapInsert_fst]
  · simp [KeyRing.insert, KeyRing.get_eq, mapLookup_insert_self]

/-- C7: when add_from_mnemonic succeeds it returns the address derived
from the public key of the derived private key, and get at that
address yields exactly the derived entry. -/
theorem C7_add_stores_derived_entry (c : CryptoOps PubKey PrivKey SKey)
    (ring : KeyRing PubKey PrivKey) (m : String) (mn : Bytes) (priv : PrivKey)
    (h1 : c.mnemonicFromStr m = some mn)
    (h2 : (c.newMaster (c.toSeed mn)).bind c.derivePriv = some priv) :
    (KeyRing.add_from_mnemonic c ring m).1 =
      Except.ok (get_address c (c.fromPrivate priv)) ∧
    KeyRing.get (KeyRing.add_from_mnemonic c ring m).2
      (get_address c (c.fromPrivate priv)) = Except.ok ⟨c.fromPrivate priv, priv⟩ := by
  refine ⟨?_, get_after_add c ring m mn priv h1 h2⟩
  rw [add_from_mnemonic_success c ring m mn priv h1 h2]

theorem C7_witness :
    toyCrypto.mnemonicFromStr "a" = some [97] ∧
    (toyCrypto.newMaster (toyCrypto.toSeed [97])).bind toyCrypto.derivePriv = some [97] ∧
    (KeyRing.add_from_mnemonic toyCrypto (KeyRing.init StoreBackend.memory : KeyRing Bytes Bytes) "a").1 =
      Except.ok (get_address toyCrypto (toyCrypto.fromPrivate [97])) ∧
    KeyRing.get (KeyRing.add_from_mnemonic toyCrypto
      (KeyRing.init StoreBackend.memory : KeyRing Bytes Bytes) "a").2
      (get_address toyCrypto (toyCrypto.fromPrivate [97])) =
      Except.ok ⟨toyCrypto.fromPrivate [97], [97]⟩ :=
  ⟨rfl, rfl,
   (C7_add_stores_derived_entry toyCrypto (KeyRing.init StoreBackend.memory) "a" [97] [97] rfl rfl).1,
   (C7_add_stores_derived_entry toyCrypto (KeyRing.init StoreBackend.memory) "a" [97] [97] rfl rfl).2⟩

/-- C8: under the ecdsa round-trip property of the external signing
crate, a signature produced by sign at the address stored by a
successful add verifies against the stored public key. -/
theorem C8_signature_verifies (c : CryptoOps PubKey PrivKey SKey)
    (hround : ∀ priv skey msg, c.signingKeyNew (c.privBytes priv) = some skey →
      c.verify (c.pubBytes (c.fromPrivate priv)) msg (c.signRaw skey msg) = true)
    (ring : KeyRing PubKey PrivKey) (m : String) (mn : Bytes) (priv : PrivKey)
    (skey : SKey) (msg : Bytes)
    (h1 : c.mnemonicFromStr m = some mn)
    (h2 : (c.newMaster (c.toSeed mn)).bind c.derivePriv = some priv)
    (hsk : c.signingKeyNew (c.privBytes priv) = some skey) :
    KeyRing.sign c (KeyRing.add_from_mnemonic c ring m).2
      (get_address c (c.fromPrivate priv)) msg = some (c.signRaw skey msg) ∧
    c.verify (c.pubBytes (c.fromPrivate priv)) msg (c.signRaw skey msg) = true :=
  ⟨sign_after_add c ring m mn priv skey msg h1 h2 hsk, hround priv skey msg hsk⟩

theorem C8_witness :
    (∀ p sk ms, toyCrypto.signingKeyNew (toyCrypto.privBytes p) = some sk →
      toyCrypto.verify (toyCrypto.pubBytes (toyCrypto.fromPrivate p)) ms
        (toyCrypto.signRaw sk ms) = true) ∧
    KeyRing.sign toyCrypto (KeyRing.add_from_mnemonic toyCrypto
      (KeyRing.init StoreBackend.memory : KeyRing Bytes Bytes) "a").2
      (get_address toyCrypto (toyCrypto.fromPrivate [97])) [5, 6] =
      some (toyCrypto.signRaw [97] [5, 6]) ∧
    toyCrypto.verify (toyCrypto.pubBytes (toyCrypto.fromPrivate [97])) [5, 6]
      (toyCrypto.signRaw [97] [5, 6]) = true := by
  have hround : ∀ p sk ms, toyCrypto.signingKeyNew (toyCrypto.privBytes p) = some sk →
      toyCrypto.verify (toyCrypto.pubBytes (toyCrypto.fromPrivate p)) ms
        (toyCrypto.signRaw sk ms) = true := by
    intro p sk ms h
    simp [toyCrypto] at h ⊢
    simp [h]
  have hmain := C8_signature_verifies toyCrypto hround
    (KeyRing.init StoreBackend.memory) "a" [97] [97] [97] [5, 6] rfl rfl rfl
  exact ⟨hround, hmain.1, hmain.2⟩

/-- C9: inserting at one address does not change what get returns at
any other address, nor the binding stored there; get and sign take the
ring immutably in the source, which the embedding reflects by giving
them no store output at all. -/
theorem C9_insert_frame (ring : KeyRing PubKey PrivKey) (a aP : Address)
    (k : KeyEntry PubKey PrivKey) (h : aP ≠ a) :
    KeyRing.get (ring.insert a k).2 aP = ring.get aP ∧
    mapLookup (ring.insert a k).2.store aP = mapLookup ring.store aP := by
  obtain ⟨s⟩ := ring
  have hl := mapLookup_insert_ne s a aP k h
  constructor
  · rw [KeyRing.insert]
    rw [KeyRing.get_eq, KeyRing.get_eq, hl]
  · simp [KeyRing.insert, KeyRing.store, hl]

theorem C9_witness :
    ([1] : Address) ≠ [0] ∧
    KeyRing.get ((KeyRing.init StoreBackend.memory : KeyRing Bytes Bytes).insert [0] ⟨[], []⟩).2 [1] =
      KeyRing.get (KeyRing.init StoreBackend.memory : KeyRing Bytes Bytes) [1] ∧
    mapLookup ((KeyRing.init StoreBackend.memory : KeyRing Bytes Bytes).insert [0] ⟨[], []⟩).2.store [1] =
      mapLookup (KeyRing.init StoreBackend.memory : KeyRing Bytes Bytes).store [1] := by
  have hmain := C9_insert_frame (KeyRing.init StoreBackend.memory : KeyRing Bytes Bytes)
    [0] [1] ⟨[], []⟩ (by decide)
  exact ⟨by decide, hmain.1, hmain.2⟩

/-- C10: when the bip32 engine only ever returns private keys whose
bytes the signing-key constructor accepts, the second unwrap inside
sign cannot abort for an entry stored by a successful add: sign at the
derived address returns a signature. -/
theorem C10_derived_entry_signing_key_ok (c : CryptoOps PubKey PrivKey SKey)
    (hvalid : ∀ seed k1 k2, c.newMaster seed = some k1 → c.derivePriv k1 = some k2 →
      (c.signingKeyNew (c.privBytes k2)).isSome = true)
    (ring : KeyRing PubKey PrivKey) (m : String) (mn : Bytes) (priv : PrivKey) (msg : Bytes)
    (h1 : c.mnemonicFromStr m = some mn)
    (h2 : (c.newMaster (c.toSeed mn)).bind c.derivePriv = some priv) :
    (KeyRing.sign c (KeyRing.add_from_mnemonic c ring m).2
      (get_address c (c.fromPrivate priv)) msg).isSome = true := by
  obtain ⟨k1, hk1, hk2⟩ := Option.bind_eq_some.mp h2
  have hs := hvalid (c.toSeed mn) k1 priv hk1 hk2
  obtain ⟨skey, hsk⟩ := Option.isSome_iff_exists.mp hs
  rw [sign_after_add c ring m mn priv skey msg h1 h2 hsk]
  rfl

theorem C10_witness :
    (∀ seed k1 k2, toyCrypto.newMaster seed = some k1 → toyCrypto.derivePriv k1 = some k2 →
      (toyCrypto.signingKeyNew (toyCrypto.privBytes k2)).isSome = true) ∧
    (KeyRing.sign toyCrypto (KeyRing.add_from_mnemonic toyCrypto
      (KeyRing.init StoreBackend.memory : KeyRing Bytes Bytes) "a").2
      (get_address toyCrypto (toyCrypto.fromPrivate [97])) [7]).isSome = true := by
  have hvalid : ∀ seed k1 k2, toyCrypto.newMaster seed = some k1 →
      toyCrypto.derivePriv k1 = some k2 →
      (toyCrypto.signingKeyNew (toyCrypto.privBytes k2)).isSome = true := by
    intro seed k1 k2 hk1 hk2
    rfl
  exact ⟨hvalid, C10_derived_entry_signing_key_ok toyCrypto hvalid
    (KeyRing.init StoreBackend.memory) "a" [97] [97] [7] rfl rfl⟩

end Keyring
